import Mathlib

/-!
Shallow embedding of the auto-rsa multi-broker order-dispatch orchestrator
(autoRSA.py) and the broker adapters named by the claims (tradierAPI.py,
robinhoodAPI.py, fennelAPI.py, publicAPI.py, schwabAPI.py).

External effects (HTTP requests, broker SDK calls, the Discord OTP relay and
the credential database) are modelled as oracle parameters; each adapter or
orchestrator function is translated into a pure function producing the list
of observable events (messages printed / sent, orders submitted, adapter
invocations) in program order.
-/

namespace AutoRSA

/-- autoRSA.py lines 72-84: the fixed list of supported brokers, in source order. -/
def SUPPORTED_BROKERS : List String :=
  ["chase", "fennel", "fidelity", "firstrade", "public", "robinhood",
   "schwab", "tastytrade", "tradier", "vanguard", "webull"]

/-- autoRSA.py lines 85-94: the "day1" broker subset, in source order. -/
def DAY1_BROKERS : List String :=
  ["chase", "fennel", "firstrade", "public", "schwab", "tastytrade",
   "tradier", "webull"]

/-- autoRSA.py lines 102-115: broker nickname resolution. -/
def nicknames (broker : String) : String :=
  if broker = "fid" ∨ broker = "fido" then "fidelity"
  else if broker = "ft" then "firstrade"
  else if broker = "rh" then "robinhood"
  else if broker = "tasty" then "tastytrade"
  else if broker = "vg" then "vanguard"
  else if broker = "wb" then "webull"
  else broker

/-- autoRSA.py lines 294-305 (argParser, buy/sell branch; the holdings branch at
lines 267-279 is identical for the aliases): the broker set selected for one
broker-set argument. Aliases expand to fixed lists; a non-alias argument is
split on commas, nickname-resolved and filtered to supported brokers.
`stockOrder.set_brokers` lives in helperAPI.py, which is not under src/; per
spec section 3 it accumulates brokers in insertion order, so the alias
branches, which pass a whole list at once, yield exactly these lists. -/
def brokersFor (arg : String) : List String :=
  if arg = "all" then SUPPORTED_BROKERS
  else if arg = "day1" then DAY1_BROKERS
  else if arg = "most" then SUPPORTED_BROKERS.filter (fun x => x ≠ "vanguard")
  else if arg = "fast" then DAY1_BROKERS ++ ["robinhood"]
  else ((arg.splitOn ",").map nicknames).filter (fun b => b ∈ SUPPORTED_BROKERS)

/-- Modelled from the spec: `stockOrder` is defined in helperAPI.py, which is not
under src/. Spec section 3 (OrderRequest): action, amount, symbols, brokers,
excluded brokers, and "dry_run: boolean, defaults true"; symbols and broker
sets keep insertion order. Only the fields read by the code under src/ are
modelled. -/
structure stockOrder where
  action : String := ""
  amount : Rat := 0
  stocks : List String := []
  brokers : List String := []
  notbrokers : List String := []
  dry : Bool := true
  holdings : Bool := false
deriving DecidableEq

/-- Modelled from the spec: `Brokerage` is defined in helperAPI.py, which is not
under src/. Spec section 3 (BrokerSession): a display name plus, per
sub-account key in insertion order, the ordered account identifiers that key
discovered. The opaque login handles, balances and holdings play no role in
the claims and are omitted. -/
structure Brokerage where
  display_name : String
  accounts : List (String × List String)
deriving DecidableEq

/-- Observable events of an adapter transact run, in program order.
`submitOrder` / `submitLimitOrder` are unconditionally-real order submissions
(tradier's order POST, robinhood's market / limit orders); `apiOrder` is a
broker-SDK place-order call that itself carries the dry-run flag (fennel,
public). `info` is a printAndDiscord / print line (maskString, which lives in
helperAPI.py outside src/, is display-only and omitted from messages). -/
inductive TxEvent where
  | info (msg : String)
  | submitOrder (broker account symbol side : String) (qty : Rat)
  | submitLimitOrder (broker account symbol side : String) (qty : Rat) (price : Rat)
  | apiOrder (broker key account symbol side : String) (qty : Rat) (dryRun : Bool)
deriving DecidableEq

/-- An event that actually submits a real (non-dry) order to a broker. -/
def TxEvent.isRealSubmit : TxEvent → Bool
  | .info _ => false
  | .submitOrder _ _ _ _ _ => true
  | .submitLimitOrder _ _ _ _ _ _ => true
  | .apiOrder _ _ _ _ _ _ d => !d

/-- Outcome of tradier's order POST (make_request on accounts/.../orders) for one
(account, symbol) pair: make_request returned None, a JSON body with an order
status, a JSON body without one, or the response handling raised. -/
inductive TradierPost where
  | noResponse
  | status (s : String)
  | noRoute
  | raises (errMsg : String)
deriving DecidableEq

/-- tradierAPI.py lines 194-248: the body of tradier_transaction's innermost
(per-account) loop for stock `s` and account `account`: reject fractional
amounts; when not dry, POST the order and report the response; otherwise print
the DRY mode line. `post` is the oracle for the broker's response. -/
def tradier_account_events (post : String → String → TradierPost)
    (orderObj : stockOrder) (s account : String) : List TxEvent :=
  if ¬ orderObj.amount.isInt then
    [TxEvent.info ("Tradier account " ++ account ++ " Error: Fractional share " ++
      toString orderObj.amount ++ " not supported")]
  else if ¬ orderObj.dry then
    TxEvent.submitOrder "tradier" account s orderObj.action orderObj.amount ::
    (match post account s with
     | .noResponse =>
         [TxEvent.info ("Tradier account " ++ account ++ " Error: JSON response is None")]
     | .status st =>
         [TxEvent.info ("Tradier account " ++ account ++ ": " ++ orderObj.action ++
           " " ++ toString orderObj.amount ++ " of " ++ s ++ ": " ++ st)]
     | .noRoute =>
         [TxEvent.info ("Tradier account " ++ account ++
           " Error: This order did not route.")]
     | .raises e =>
         [TxEvent.info ("Tradier account " ++ account ++ " Error: " ++ e)])
  else
    [TxEvent.info ("Tradier account " ++ account ++
      ": Running in DRY mode. Trasaction would have been: " ++ orderObj.action ++
      " " ++ toString orderObj.amount ++ " of " ++ s)]

/-- tradierAPI.py lines 181-248 (tradier_transaction): for each stock, for each
sub-account key (header line), run the per-account body over that key's
accounts. -/
def tradier_transaction (tradier_o : Brokerage) (orderObj : stockOrder)
    (post : String → String → TradierPost) : List TxEvent :=
  orderObj.stocks.flatMap fun s =>
    tradier_o.accounts.flatMap fun kv =>
      TxEvent.info (kv.fst ++ ": " ++ orderObj.action ++ "ing " ++
          toString orderObj.amount ++ " of " ++ s) ::
      kv.snd.flatMap (tradier_account_events post orderObj s)

/-- Result of one robin-stocks order call (obj.order): the call raised, returned
None, or returned an order dict whose optional non_field_errors is carried. -/
inductive RhOrder where
  | raises (msg : String)
  | retNone
  | ret (nonFieldErrors : Option String)
deriving DecidableEq

/-- Python's round(x, 2). Python rounds half to even; the half-cent tie case is
modelled as round-half (Mathlib's round), which agrees off ties and affects no
claim. -/
def round2 (x : Rat) : Rat := (round (x * 100) : ℤ) / 100

/-- robinhoodAPI.py lines 151-243 (robinhood_transaction): for each stock, for
each sub-account key (header line), for each account: re-login from cache (no
observable event), then when not dry, place a market order; if it returns None,
fall back to a limit order priced one cent beyond the better of ask / bid;
report results; a raise anywhere in the try is reported. When dry, print the
DRY mode line. Oracles: `market` for the market order, `ask` / `bid` for
get_latest_price (None when the price is missing), `limit` for the limit
order. -/
def robinhood_transaction (rho : Brokerage) (orderObj : stockOrder)
    (market : String → String → RhOrder) (ask bid : String → Option Rat)
    (limit : String → String → Rat → RhOrder) : List TxEvent :=
  orderObj.stocks.flatMap fun s =>
    rho.accounts.flatMap fun kv =>
      TxEvent.info (kv.fst ++ ": " ++ orderObj.action ++ "ing " ++
          toString orderObj.amount ++ " of " ++ s) ::
      kv.snd.flatMap fun account =>
        if ¬ orderObj.dry then
          TxEvent.submitOrder "robinhood" account s orderObj.action orderObj.amount ::
          (match market account s with
           | .raises e => [TxEvent.info (kv.fst ++ " Error submitting order: " ++ e)]
           | .ret nfe =>
               [TxEvent.info (kv.fst ++ ": " ++ orderObj.action ++ " " ++
                 toString orderObj.amount ++ " of " ++ s ++ " in " ++ account ++ ": " ++
                 nfe.getD "Success")]
           | .retNone =>
               TxEvent.info (kv.fst ++ ": Error " ++ orderObj.action ++ "ing " ++
                 toString orderObj.amount ++ " of " ++ s ++ " in " ++ account ++
                 ", trying Limit Order") ::
               match ask s, bid s with
               | some a, some b =>
                   let price :=
                     if orderObj.action = "buy" then
                       round2 ((if a > b then a else b) + 1 / 100)
                     else
                       round2 ((if a < b then a else b) - 1 / 100)
                   TxEvent.submitLimitOrder "robinhood" account s orderObj.action
                     orderObj.amount price ::
                   (match limit account s price with
                    | .raises e => [TxEvent.info (kv.fst ++ " Error submitting order: " ++ e)]
                    | .retNone =>
                        [TxEvent.info (kv.fst ++ ": Error " ++ orderObj.action ++ "ing " ++
                          toString orderObj.amount ++ " of " ++ s ++ " in " ++ account)]
                    | .ret nfe =>
                        [TxEvent.info (kv.fst ++ ": " ++ orderObj.action ++ " " ++
                          toString orderObj.amount ++ " of " ++ s ++ " in " ++ account ++
                          " @ " ++ toString price ++ ": " ++ nfe.getD "Success")])
               | _, _ => [TxEvent.info (kv.fst ++ ": Error getting price for " ++ s)])
        else
          [TxEvent.info (kv.fst ++ " " ++ account ++
            " Running in DRY mode. Transaction would have been: " ++ orderObj.action ++
            " " ++ toString orderObj.amount ++ " of " ++ s)]

/-- Result of fennel's obj.place_order for one (account, symbol): the call raised,
or returned an order dict with the dry_run_success flag and the
data.createOrder field. -/
inductive FennelOrder where
  | raises (msg : String)
  | ret (dryRunSuccess : Bool) (createOrder : Option String)
deriving DecidableEq

/-- fennelAPI.py lines 148-174: the body of fennel_transaction's innermost
(per-account) loop: call place_order with the order's dry_run flag (always
called, dry or not), then report the dry-run or live outcome; a raise is
caught per (symbol, account) and reported. `place` is the oracle for
place_order, keyed by (key, account, symbol). -/
def fennel_account_events (place : String → String → String → FennelOrder)
    (orderObj : stockOrder) (key s account : String) : List TxEvent :=
  TxEvent.apiOrder "fennel" key account s orderObj.action orderObj.amount
    orderObj.dry ::
  (match place key account s with
   | .raises e =>
       [TxEvent.info (key ++ " " ++ account ++ ": Error placing order: " ++ e)]
   | .ret dok created =>
       let message :=
         if orderObj.dry then
           if dok then "Dry Run Success" else "Dry Run Failed"
         else
           if created = some "pending" then "Success" else created.getD ""
       [TxEvent.info (key ++ ": " ++ orderObj.action ++ " " ++
         toString orderObj.amount ++ " of " ++ s ++ " in " ++ account ++ ": " ++
         message)])

/-- fennelAPI.py lines 136-174 (fennel_transaction): for each stock, for each
sub-account key (header line), run the per-account body over that key's
accounts. -/
def fennel_transaction (fbo : Brokerage) (orderObj : stockOrder)
    (place : String → String → String → FennelOrder) : List TxEvent :=
  orderObj.stocks.flatMap fun s =>
    fbo.accounts.flatMap fun kv =>
      TxEvent.info (kv.fst ++ ": " ++ orderObj.action ++ "ing " ++
          toString orderObj.amount ++ " of " ++ s) ::
      kv.snd.flatMap (fennel_account_events place orderObj kv.fst s)

/-- Result of public's obj.place_order for one (account, symbol): the call raised,
or returned an order dict whose success field is carried. -/
inductive PublicOrder where
  | raises (msg : String)
  | ret (success : Bool)
deriving DecidableEq

/-- publicAPI.py lines 143-164: the body of public_transaction's innermost
(per-account) loop: call place_order with the order's is_dry_run flag (always
called, dry or not) and report the outcome; a raise is caught per
(symbol, account) and reported. `place` is the oracle for place_order, keyed
by (key, account, symbol). -/
def public_account_events (place : String → String → String → PublicOrder)
    (orderObj : stockOrder) (key s account : String) : List TxEvent :=
  TxEvent.apiOrder "public" key account s orderObj.action orderObj.amount
    orderObj.dry ::
  (match place key account s with
   | .raises e => [TxEvent.info (account ++ ": Error placing order: " ++ e)]
   | .ret ok =>
       [TxEvent.info (key ++ ": " ++ orderObj.action ++ " " ++
         toString orderObj.amount ++ " of " ++ s ++ " in " ++ account ++ ": " ++
         (if ok then "Success" else "order"))])

/-- publicAPI.py lines 131-164 (public_transaction): for each stock, for each
sub-account key (header line), run the per-account body over that key's
accounts. -/
def public_transaction (pbo : Brokerage) (orderObj : stockOrder)
    (place : String → String → String → PublicOrder) : List TxEvent :=
  orderObj.stocks.flatMap fun s =>
    pbo.accounts.flatMap fun kv =>
      TxEvent.info (kv.fst ++ ": " ++ orderObj.action ++ "ing " ++
          toString orderObj.amount ++ " of " ++ s) ::
      kv.snd.flatMap (public_account_events place orderObj kv.fst s)

/-- The (sub-account key, account, symbol) combinations in the order the transact
loops of fennelAPI.py / publicAPI.py / tradierAPI.py visit them: the outer
loop ranges over orderObj.get_stocks(), then sub-account keys, then that key's
accounts — symbol-major. -/
def transaction_visits (o : Brokerage) (orderObj : stockOrder) :
    List (String × String × String) :=
  orderObj.stocks.flatMap fun s =>
    o.accounts.flatMap fun kv =>
      kv.snd.map fun account => (kv.fst, account, s)

/-- The visit order asserted by claim C8, written from the claim's words: for each
sub-account key in order, every requested symbol is processed in request order
before moving to the next sub-account — sub-account-major. -/
def claimed_visits (o : Brokerage) (orderObj : stockOrder) :
    List (String × String × String) :=
  o.accounts.flatMap fun kv =>
    orderObj.stocks.flatMap fun s =>
      kv.snd.map fun account => (kv.fst, account, s)

/-- The (key, account, symbol) triple of a fennel or public place-order call. -/
def TxEvent.apiVisit : TxEvent → Option (String × String × String)
  | .apiOrder _ key account symbol _ _ _ => some (key, account, symbol)
  | _ => none

/-- The (account, symbol) pair of an order POST (applied to tradier event
lists, whose submissions all carry the tradier broker tag). -/
def TxEvent.tradierVisit : TxEvent → Option (String × String)
  | .submitOrder _ account symbol _ _ => some (account, symbol)
  | _ => none

/-- The (account, symbol) pairs in the order tradier_transaction's loops visit
them, with the key level flattened away (the POST carries only the account). -/
def tradier_visits (o : Brokerage) (orderObj : stockOrder) : List (String × String) :=
  orderObj.stocks.flatMap fun s =>
    o.accounts.flatMap fun kv =>
      kv.snd.map fun account => (account, s)

/-- Outcome of one credential set's whole login-plus-account-discovery sequence
inside an init function: it raised / failed, or it succeeded and discovered
the given ordered account identifiers. -/
inductive LoginOutcome where
  | fail
  | ok (accounts : List String)
deriving DecidableEq

/-- Observable events of an adapter init run, in program order. `awaitCode` is a
getOTPCodeDiscord call with its timeout in seconds; `loginError` is a printed
per-credential-set error after which the loop continues; `skipped` is the
"not found, skipping..." line. -/
inductive InitEvent where
  | skipped (broker : String)
  | awaitCode (name : String) (timeoutSecs : Nat)
  | loginError (name context : String)
  | loggedIn (name : String)
deriving DecidableEq

/-- schwabAPI.py lines 39-77, the per-credential loop of schwab_init: names use
accounts.index(account) + 1 (Python list.index: first occurrence); on success
the discovered accounts are recorded; on any exception the function returns
None, discarding everything accumulated so far. `all` is the full credential
list (for index computation), `login` the per-credential outcome oracle. -/
def schwabGo (uid : String) (login : String → LoginOutcome) (all : List String) :
    List String → Option (List (String × List String))
  | [] => some []
  | a :: rest =>
    let name := uid ++ "-Schwab " ++ toString (all.findIdx (· = a) + 1)
    match login a with
    | .fail => none
    | .ok accts => (schwabGo uid login all rest).map (fun r => (name, accts) :: r)

/-- schwabAPI.py lines 15-78 (schwab_init): None when neither the SCHWAB variable
nor external credentials exist (creds = none); otherwise run the
per-credential loop. -/
def schwab_init (creds : Option (List String)) (uid : String)
    (login : String → LoginOutcome) : Option (List (String × List String)) :=
  match creds with
  | none => none
  | some accounts => schwabGo uid login accounts accounts

/-- robinhoodAPI.py lines 60-64: appending discovered account numbers while
skipping any already present in all_account_numbers, returning the grown seen
list and the freshly added accounts in order. -/
def addFresh (seen : List String) : List String → List String × List String
  | [] => (seen, [])
  | x :: xs =>
    if x ∈ seen then addFresh seen xs
    else
      let r := addFresh (seen ++ [x]) xs
      (r.fst, x :: r.snd)

/-- robinhoodAPI.py lines 42-81, the per-credential loop of robinhood_init: every
credential set shares the single name uid-Robinhood; discovered account
numbers are deduplicated across sets via all_account_numbers; on any exception
the function returns None, discarding everything accumulated so far. -/
def robinhoodGo (uid : String) (login : String → LoginOutcome) (seen : List String) :
    List String → Option (List (String × List String))
  | [] => some []
  | a :: rest =>
    let name := uid ++ "-Robinhood"
    match login a with
    | .fail => none
    | .ok accts =>
      let fresh := addFresh seen accts
      (robinhoodGo uid login fresh.fst rest).map (fun r => (name, fresh.snd) :: r)

/-- robinhoodAPI.py lines 22-82 (robinhood_init): None when neither the ROBINHOOD
variable nor external credentials exist (creds = none); otherwise run the
per-credential loop with an empty all_account_numbers. -/
def robinhood_init (creds : Option (List String)) (uid : String)
    (login : String → LoginOutcome) : Option (List (String × List String)) :=
  match creds with
  | none => none
  | some accounts => robinhoodGo uid login [] accounts

/-- Outcome of fennel's first fb.login attempt plus account discovery for one
credential set: fully succeeded, raised with "2FA" in the message, or failed
any other way (including a raise while fetching accounts). -/
inductive FennelLoginStep where
  | ok (accounts : List String)
  | twoFA
  | err
deriving DecidableEq

/-- fennelAPI.py lines 17-96 (fennel_init), the per-credential loop. Names are
uid-Fennel index+1. On a first-login 2FA raise in bot mode, the code awaits a
Discord OTP with timeout=300 (fennelAPI.py line 60); a missing code raises "No
2FA code found", caught by the 2FA handler, which prints and continues with the
next credential set. Outside bot mode the 2FA raise propagates to the outer
per-credential handler. Oracles: `first` for the first login, `otp` for
getOTPCodeDiscord (helperAPI.py, not under src/; modelled from the spec as
returning the code or none on timeout), `retry` for the login-with-code plus
account discovery. -/
def fennelGo (uid : String) (botMode : Bool) (first : String → FennelLoginStep)
    (otp : String → Option String) (retry : String → LoginOutcome) :
    Nat → List String → List InitEvent × List (String × List String)
  | _, [] => ([], [])
  | i, a :: rest =>
    let name := uid ++ "-Fennel " ++ toString (i + 1)
    let this : List InitEvent × List (String × List String) :=
      match first a with
      | .ok accts => ([InitEvent.loggedIn name], [(name, accts)])
      | .err => ([InitEvent.loginError name "Fennel"], [])
      | .twoFA =>
        if botMode then
          let afterCode : List InitEvent × List (String × List String) :=
            match otp name with
            | none => ([InitEvent.loginError name "Fennel(2FA)"], [])
            | some _ =>
              match retry a with
              | .ok accts => ([InitEvent.loggedIn name], [(name, accts)])
              | .fail => ([InitEvent.loginError name "Fennel(2FA)"], [])
          (InitEvent.awaitCode name 300 :: afterCode.fst, afterCode.snd)
        else ([InitEvent.loginError name "Fennel"], [])
    let r := fennelGo uid botMode first otp retry (i + 1) rest
    (this.fst ++ r.fst, this.snd ++ r.snd)

/-- fennelAPI.py lines 17-96 (fennel_init): the skip line and None when neither
the FENNEL variable nor external credentials exist; otherwise the
per-credential loop runs and the Brokerage is always returned. -/
def fennel_init (creds : Option (List String)) (uid : String) (botMode : Bool)
    (first : String → FennelLoginStep) (otp : String → Option String)
    (retry : String → LoginOutcome) :
    List InitEvent × Option (List (String × List String)) :=
  match creds with
  | none => ([InitEvent.skipped "Fennel"], none)
  | some accounts =>
    let r := fennelGo uid botMode first otp retry 0 accounts
    (r.fst, some r.snd)

/-- Outcome of public's first pb.login attempt plus account discovery for one
credential set: succeeded with the single account number, raised with "2FA" in
the message, or failed any other way. -/
inductive PublicLoginStep where
  | ok (acct : String)
  | twoFA
  | err
deriving DecidableEq

/-- Outcome of public's login retry with the delivered code, plus account
discovery. -/
inductive PublicRetry where
  | ok (acct : String)
  | fail
deriving DecidableEq

/-- publicAPI.py lines 38-90 (public_init), the per-credential loop. Names are
uid-Public index+1. On a first-login 2FA raise in bot mode, the code awaits a
Discord OTP with timeout=300 (publicAPI.py line 64); a missing code raises "No
SMS code found", which propagates to the outer per-credential handler, which
prints and continues with the next credential set. Outside bot mode the 2FA
raise propagates likewise. Oracles as for fennelGo. -/
def publicGo (uid : String) (botMode : Bool) (first : String → PublicLoginStep)
    (otp : String → Option String) (retry : String → PublicRetry) :
    Nat → List String → List InitEvent × List (String × List String)
  | _, [] => ([], [])
  | i, a :: rest =>
    let name := uid ++ "-Public " ++ toString (i + 1)
    let this : List InitEvent × List (String × List String) :=
      match first a with
      | .ok an => ([InitEvent.loggedIn name], [(name, [an])])
      | .err => ([InitEvent.loginError name "Public"], [])
      | .twoFA =>
        if botMode then
          let afterCode : List InitEvent × List (String × List String) :=
            match otp name with
            | none => ([InitEvent.loginError name "Public"], [])
            | some _ =>
              match retry a with
              | .ok an => ([InitEvent.loggedIn name], [(name, [an])])
              | .fail => ([InitEvent.loginError name "Public"], [])
          (InitEvent.awaitCode name 300 :: afterCode.fst, afterCode.snd)
        else ([InitEvent.loginError name "Public"], [])
    let r := publicGo uid botMode first otp retry (i + 1) rest
    (this.fst ++ r.fst, this.snd ++ r.snd)

/-- publicAPI.py lines 18-92 (public_init): the skip line and None when neither
the PUBLIC_BROKER variable nor external credentials exist; otherwise the
per-credential loop runs and the Brokerage is always returned. -/
def public_init (creds : Option (List String)) (uid : String) (botMode : Bool)
    (first : String → PublicLoginStep) (otp : String → Option String)
    (retry : String → PublicRetry) :
    List InitEvent × Option (List (String × List String)) :=
  match creds with
  | none => ([InitEvent.skipped "Public"], none)
  | some accounts =>
    let r := publicGo uid botMode first otp retry 0 accounts
    (r.fst, some r.snd)

/-- Outcome of one adapter's init call (or, for the Playwright brokers, of the
whole broker_run call) as the orchestrator sees it: it raised, returned None,
or returned a session object. -/
inductive InitOutcome where
  | raises
  | retNone
  | retSession
deriving DecidableEq

/-- One broker adapter's behaviour for one dispatch, as the orchestrator's
oracle: the init (or _run) outcome, and whether the holdings / transaction
call completes without raising. -/
structure AdapterBehavior where
  init : InitOutcome
  actionOk : Bool
deriving DecidableEq

/-- Observable events of one fun_run dispatch, in program order. `credLookup` is
the per-broker credential query (raw broker name, before nickname
resolution); `adapterCall` is a globals()[fun_name] invocation (resolved
broker name plus the function name); `errorLog` is the per-broker except
block, carrying the broker, the failing function name and the printed order
request; `allComplete` is the final consolidated line. -/
inductive RunEvent where
  | noBrokersMsg
  | credLookup (broker : String)
  | adapterCall (broker fn : String)
  | notLoggedIn (broker : String)
  | transactionsComplete (broker : String)
  | errorLog (broker fn : String) (order : stockOrder)
  | allComplete
  | invalidCommand (init second : String)
deriving DecidableEq

/-- autoRSA.py line 178: brokers whose init takes the bot object and loop. -/
def botBrokers : List String := ["fennel", "firstrade", "public"]

/-- autoRSA.py line 186: Playwright brokers, run whole via broker_run. -/
def playwrightBrokers : List String := ["chase", "fidelity", "vanguard"]

/-- autoRSA.py lines 219-246: the part of the per-broker try after the init call
returned without raising. chase and vanguard skip it entirely; otherwise
order_validate(preLogin=False) re-runs (order_validate lives in helperAPI.py,
not under src/; modelled from the spec as raising exactly when the broker set
is empty), the logged-in object is fetched (None prints the skip line and
continues), and the holdings or transaction call runs, any raise landing in
the per-broker except. `fn` is the value of fun_name when this part starts,
used if order_validate raises. -/
def postInit (beh : AdapterBehavior) (o : stockOrder) (second : String)
    (nb : String) (loggedIn : Bool) (fn : String) : List RunEvent :=
  if nb = "chase" ∨ nb = "vanguard" then []
  else if o.brokers.isEmpty then [RunEvent.errorLog nb fn o]
  else if ¬ loggedIn then [RunEvent.notLoggedIn nb]
  else if second = "_holdings" then
    RunEvent.adapterCall nb (nb ++ "_holdings") ::
    (if beh.actionOk then [] else [RunEvent.errorLog nb (nb ++ "_holdings") o])
  else
    RunEvent.adapterCall nb (nb ++ "_transaction") ::
    (if beh.actionOk then [RunEvent.transactionsComplete nb]
     else [RunEvent.errorLog nb (nb ++ "_transaction") o])

/-- autoRSA.py lines 175-250: the per-broker try / except body for resolved
broker name `nb`. Bot brokers and the default group call nb_init and record
the result via set_logged_in; Playwright brokers call nb_run through the
cross-thread handoff, where a raise or a None result becomes a RuntimeError
caught by the per-broker except, and set_logged_in is never called for them
(so the later logged-in check sees None). -/
def brokerTryEvents (beh : AdapterBehavior) (o : stockOrder) (second : String)
    (nb : String) : List RunEvent :=
  if nb ∈ playwrightBrokers then
    RunEvent.adapterCall nb (nb ++ "_run") ::
    (match beh.init with
     | .raises => [RunEvent.errorLog nb (nb ++ "_run") o]
     | .retNone => [RunEvent.errorLog nb (nb ++ "_run") o]
     | .retSession => postInit beh o second nb false (nb ++ "_run"))
  else
    RunEvent.adapterCall nb (nb ++ "_init") ::
    (match beh.init with
     | .raises => [RunEvent.errorLog nb (nb ++ "_init") o]
     | .retNone => postInit beh o second nb false (nb ++ "_init")
     | .retSession => postInit beh o second nb true (nb ++ "_init"))

/-- autoRSA.py lines 152-251: one iteration of the dispatch loop for raw broker
name `broker`: the unconditional robinhood skip, the excluded-brokers skip,
the credential lookup (continue when absent), nickname resolution, then the
per-broker try / except. `creds` is the credential-store oracle for this
user. -/
def processBroker (creds : String → Option String) (env : String → AdapterBehavior)
    (o : stockOrder) (second : String) (broker : String) : List RunEvent :=
  if broker = "robinhood" then []
  else if broker ∈ o.notbrokers then []
  else
    RunEvent.credLookup broker ::
    (match creds broker with
     | none => []
     | some _ => brokerTryEvents (env (nicknames broker)) o second (nicknames broker))

/-- autoRSA.py lines 130-254 (fun_run), for a live database connection: reject
invalid commands, report an empty broker set, otherwise run the dispatch loop
over the order's brokers in order and emit the final consolidated line. -/
def fun_run (creds : String → Option String) (env : String → AdapterBehavior)
    (o : stockOrder) (command : String × String) : List RunEvent :=
  if command = ("_init", "_holdings") ∨ command = ("_init", "_transaction") then
    if o.brokers.length = 0 then [RunEvent.noBrokersMsg]
    else o.brokers.flatMap (processBroker creds env o command.snd) ++ [RunEvent.allComplete]
  else [RunEvent.invalidCommand command.fst command.snd]

/-- The broker an event concerns, when it concerns one. -/
def RunEvent.brokerOf : RunEvent → Option String
  | .credLookup b => some b
  | .adapterCall b _ => some b
  | .notLoggedIn b => some b
  | .transactionsComplete b => some b
  | .errorLog b _ _ => some b
  | _ => none

/-- autoRSA.py line 130: fun_run's parameters (author_id, orderObj, command,
botObj=None, loop=None) — three without defaults, five in total. -/
def fun_run_requiredParams : Nat := 3

/-- autoRSA.py line 130: fun_run accepts at most five positional arguments. -/
def fun_run_totalParams : Nat := 5

/-- autoRSA.py lines 374 and 376: the CLI branch of main calls
fun_run(cliOrderObj, command) — two positional arguments. -/
def main_cli_args : Nat := 2

/-- Python call semantics for a positional-only call: binding raises TypeError,
before the body runs, when fewer positional arguments are supplied than
parameters without defaults (or more than the parameter count). -/
inductive PyCall (α : Type) where
  | typeError
  | ok (a : α)
deriving DecidableEq

/-- Call a Python function of `required` mandatory and `total` positional
parameters with `provided` positional arguments. -/
def pyCall (required total provided : Nat) (body : α) : PyCall α :=
  if provided < required ∨ total < provided then PyCall.typeError else PyCall.ok body

/-- autoRSA.py lines 369-376: the CLI dispatch — main calls fun_run with the
parsed order and the command tuple as its only positional arguments; the body
is the fun_run model above. -/
def main_cli_dispatch (creds : String → Option String) (env : String → AdapterBehavior)
    (o : stockOrder) (command : String × String) : PyCall (List RunEvent) :=
  pyCall fun_run_requiredParams fun_run_totalParams main_cli_args
    (fun_run creds env o command)

/-- A login oracle for concrete runs: credential set "u2" fails, all others
succeed with one discovered account. -/
def exLogin : String → LoginOutcome :=
  fun a => if a = "u2" then LoginOutcome.fail else LoginOutcome.ok ["A-" ++ a]

/-- C7: broker-set alias expansion is deterministic and idempotent — "all" always
expands to the full fixed supported-broker list in its fixed order, and "most"
expands to exactly that list minus vanguard, with no other difference. -/
theorem alias_expansion_all_most :
    brokersFor "all" = SUPPORTED_BROKERS ∧
    brokersFor "most" = (brokersFor "all").erase "vanguard" ∧
    "vanguard" ∈ brokersFor "all" ∧
    "vanguard" ∉ brokersFor "most" ∧
    brokersFor "most" = SUPPORTED_BROKERS.filter (fun x => x ≠ "vanguard") := by
  refine ⟨rfl, ?_, ?_, ?_, rfl⟩ <;> decide

/-- C10: the CLI branch of main calls fun_run with two positional arguments while
fun_run has three parameters without defaults, so the CLI dispatch raises
TypeError before any credential lookup or broker adapter runs. -/
theorem cli_dispatch_type_error (creds : String → Option String)
    (env : String → AdapterBehavior) (o : stockOrder) (command : String × String) :
    main_cli_args < fun_run_requiredParams ∧
    main_cli_dispatch creds env o command = PyCall.typeError := by
  refine ⟨by decide, ?_⟩
  unfold main_cli_dispatch pyCall
  rw [if_pos]
  exact Or.inl (by decide)

theorem nicknames_to_robinhood (b : String) (h : nicknames b = "robinhood") :
    b = "rh" ∨ b = "robinhood" := by
  unfold nicknames at h
  split_ifs at h with h1 h2 h3 h4 h5 h6
  · exact absurd h (by decide)
  · exact absurd h (by decide)
  · exact Or.inl h3
  · exact absurd h (by decide)
  · exact absurd h (by decide)
  · exact absurd h (by decide)
  · exact Or.inr h

theorem postInit_brokerOf (beh : AdapterBehavior) (o : stockOrder) (second nb : String)
    (li : Bool) (fn : String) :
    ∀ e ∈ postInit beh o second nb li fn, e.brokerOf = some nb := by
  intro e he
  unfold postInit at he
  split_ifs at he <;>
    simp only [List.mem_cons, List.mem_singleton, List.not_mem_nil, or_false] at he <;>
    first
      | exact he.elim
      | (subst he; rfl)
      | (rcases he with rfl | rfl <;> rfl)

theorem brokerTryEvents_brokerOf (beh : AdapterBehavior) (o : stockOrder)
    (second nb : String) :
    ∀ e ∈ brokerTryEvents beh o second nb, e.brokerOf = some nb := by
  intro e he
  unfold brokerTryEvents at he
  split_ifs at he <;> cases hi : beh.init <;> rw [hi] at he <;>
    rcases List.mem_cons.mp he with rfl | he <;>
    first
      | rfl
      | exact postInit_brokerOf beh o second nb _ _ e he
      | (simp only [List.mem_singleton] at he; subst he; rfl)

theorem processBroker_brokerOf (creds : String → Option String)
    (env : String → AdapterBehavior) (o : stockOrder) (second broker : String) :
    ∀ e ∈ processBroker creds env o second broker,
      e.brokerOf = some broker ∨ e.brokerOf = some (nicknames broker) := by
  intro e he
  unfold processBroker at he
  split_ifs at he
  · simp at he
  · simp at he
  · rcases List.mem_cons.mp he with rfl | he
    · exact Or.inl rfl
    · cases hc : creds broker <;> rw [hc] at he
      · simp at he
      · exact Or.inr (brokerTryEvents_brokerOf _ o second _ e he)

/-- C9: the dispatch loop unconditionally skips "robinhood" before any credential
lookup or adapter call, so for any request whose broker list does not use the
raw "rh" nickname no event of a dispatch concerns robinhood — even though the
"fast" alias expands to a broker set containing robinhood. -/
theorem robinhood_never_dispatched (creds : String → Option String)
    (env : String → AdapterBehavior) (o : stockOrder) (command : String × String)
    (h : "rh" ∉ o.brokers) :
    "robinhood" ∈ brokersFor "fast" ∧
    (∀ second, processBroker creds env o second "robinhood" = []) ∧
    ∀ e ∈ fun_run creds env o command, e.brokerOf ≠ some "robinhood" := by
  refine ⟨by decide, fun second => by unfold processBroker; rw [if_pos rfl], ?_⟩
  intro e he
  unfold fun_run at he
  split_ifs at he with hv hl
  · simp only [List.mem_singleton] at he
    subst he
    exact fun hcon => Option.noConfusion hcon
  · rcases List.mem_append.mp he with he | he
    · obtain ⟨b, hb, hbe⟩ := List.mem_flatMap.mp he
      rcases processBroker_brokerOf creds env o command.snd b e hbe with hb' | hb'
      · rw [hb']
        intro hcon
        obtain rfl : b = "robinhood" := by simpa using hcon
        unfold processBroker at hbe
        rw [if_pos rfl] at hbe
        exact absurd hbe (List.not_mem_nil e)
      · rw [hb']
        intro hcon
        obtain hnick : nicknames b = "robinhood" := by simpa using hcon
        rcases nicknames_to_robinhood b hnick with rfl | rfl
        · exact h hb
        · unfold processBroker at hbe
          rw [if_pos rfl] at hbe
          exact absurd hbe (List.not_mem_nil e)
    · simp only [List.mem_singleton] at he
      subst he
      exact fun hcon => Option.noConfusion hcon
  · simp only [List.mem_singleton] at he
    subst he
    exact fun hcon => Option.noConfusion hcon

/-- C9 witness: dispatching a request for the "fast" broker set never touches
robinhood. -/
theorem robinhood_never_dispatched_witness :
    "rh" ∉ ({ brokers := brokersFor "fast", stocks := ["A"] } : stockOrder).brokers ∧
    ∀ e ∈ fun_run (fun _ => some "c") (fun _ => ⟨InitOutcome.retSession, true⟩)
        { brokers := brokersFor "fast", stocks := ["A"] } ("_init", "_transaction"),
      e.brokerOf ≠ some "robinhood" :=
  ⟨by decide,
   (robinhood_never_dispatched (fun _ => some "c") (fun _ => ⟨InitOutcome.retSession, true⟩)
     { brokers := brokersFor "fast", stocks := ["A"] } ("_init", "_transaction")
     (by decide)).2.2⟩

/-- C3: a broker in the request's excluded set is never processed — the dispatch
loop drops it before credential lookup and adapter execution, so (for requests
whose broker list is in canonical, nickname-resolved form, as argParser
produces) no dispatch event concerns an excluded broker. -/
theorem excluded_never_processed (creds : String → Option String)
    (env : String → AdapterBehavior) (o : stockOrder) (command : String × String)
    (b : String) (hb : b ∈ o.notbrokers) (hcanon : ∀ x ∈ o.brokers, nicknames x = x) :
    (∀ second, processBroker creds env o second b = []) ∧
    ∀ e ∈ fun_run creds env o command, e.brokerOf ≠ some b := by
  constructor
  · intro second
    unfold processBroker
    split_ifs with h1
    · rfl
    · rfl
  · intro e he
    unfold fun_run at he
    split_ifs at he with hv hl
    · simp only [List.mem_singleton] at he
      subst he
      exact fun hcon => Option.noConfusion hcon
    · rcases List.mem_append.mp he with he | he
      · obtain ⟨x, hx, hxe⟩ := List.mem_flatMap.mp he
        have hxx := processBroker_brokerOf creds env o command.snd x e hxe
        rw [hcanon x hx, or_self] at hxx
        rw [hxx]
        intro hcon
        obtain rfl : x = b := by simpa using hcon
        unfold processBroker at hxe
        split_ifs at hxe with h1
        · exact absurd hxe (List.not_mem_nil e)
        · exact absurd hxe (List.not_mem_nil e)
      · simp only [List.mem_singleton] at he
        subst he
        exact fun hcon => Option.noConfusion hcon
    · simp only [List.mem_singleton] at he
      subst he
      exact fun hcon => Option.noConfusion hcon

/-- C3 witness: with schwab excluded, a dispatch over tradier and schwab emits no
event concerning schwab. -/
theorem excluded_never_processed_witness :
    "schwab" ∈ ({ brokers := ["tradier", "schwab"], notbrokers := ["schwab"], stocks := ["A"] } : stockOrder).notbrokers ∧
    ∀ e ∈ fun_run (fun _ => some "c") (fun _ => ⟨InitOutcome.retSession, true⟩)
        { brokers := ["tradier", "schwab"], notbrokers := ["schwab"], stocks := ["A"] }
        ("_init", "_holdings"),
      e.brokerOf ≠ some "schwab" :=
  ⟨by decide,
   (excluded_never_processed (fun _ => some "c") (fun _ => ⟨InitOutcome.retSession, true⟩)
     { brokers := ["tradier", "schwab"], notbrokers := ["schwab"], stocks := ["A"] }
     ("_init", "_holdings") "schwab" (by decide) (by decide)).2⟩

theorem allComplete_not_mem_postInit (beh : AdapterBehavior) (o : stockOrder)
    (second nb : String) (li : Bool) (fn : String) :
    RunEvent.allComplete ∉ postInit beh o second nb li fn := by
  intro he
  have := postInit_brokerOf beh o second nb li fn _ he
  exact Option.noConfusion this

theorem allComplete_not_mem_brokerTry (beh : AdapterBehavior) (o : stockOrder)
    (second nb : String) :
    RunEvent.allComplete ∉ brokerTryEvents beh o second nb := by
  intro he
  have := brokerTryEvents_brokerOf beh o second nb _ he
  exact Option.noConfusion this

theorem allComplete_not_mem_processBroker (creds : String → Option String)
    (env : String → AdapterBehavior) (o : stockOrder) (second broker : String) :
    RunEvent.allComplete ∉ processBroker creds env o second broker := by
  intro he
  rcases processBroker_brokerOf creds env o second broker _ he with h | h <;>
    exact Option.noConfusion h

/-- C5: for every dispatched request (a valid command and a non-empty broker
set), fun_run emits the final consolidated all-commands-complete message
exactly once, whatever the per-broker adapter behaviours and credential store
contain — the batch always completes with no global abort. -/
theorem final_message_exactly_once (creds : String → Option String)
    (env : String → AdapterBehavior) (o : stockOrder) (sc : String)
    (hsc : sc = "_holdings" ∨ sc = "_transaction") (hne : o.brokers ≠ []) :
    (fun_run creds env o ("_init", sc)).count RunEvent.allComplete = 1 := by
  unfold fun_run
  have hval : ("_init", sc) = ("_init", "_holdings") ∨ ("_init", sc) = ("_init", "_transaction") := by
    rcases hsc with h | h
    · exact Or.inl (by rw [h])
    · exact Or.inr (by rw [h])
  rw [if_pos hval, if_neg (by simpa [List.length_eq_zero] using hne)]
  rw [List.count_append]
  have h0 : (o.brokers.flatMap (processBroker creds env o ("_init", sc).snd)).count
      RunEvent.allComplete = 0 := by
    refine List.count_eq_zero.mpr ?_
    intro hmem
    obtain ⟨b, _, hbe⟩ := List.mem_flatMap.mp hmem
    exact allComplete_not_mem_processBroker creds env o _ b hbe
  rw [h0]
  rfl

/-- C5 witness: a dispatch where every broker's adapter raises still emits the
final consolidated message exactly once. -/
theorem final_message_exactly_once_witness :
    (fun_run (fun _ => some "c") (fun _ => ⟨InitOutcome.raises, false⟩)
        { brokers := ["schwab", "tradier"], stocks := ["A"] }
        ("_init", "_transaction")).count RunEvent.allComplete = 1 :=
  final_message_exactly_once (fun _ => some "c") (fun _ => ⟨InitOutcome.raises, false⟩)
    { brokers := ["schwab", "tradier"], stocks := ["A"] } "_transaction"
    (Or.inr rfl) (by decide)

/-- C2: when a broker's adapter raises — in init or in the action phase — the
exception is caught at the per-broker boundary and logged with the broker
name, the failing function name and the order request, and every other broker
of the batch (before and after it) produces exactly the events it would
produce anyway, ending with the consolidated completion message. -/
theorem broker_failure_isolated (creds : String → Option String)
    (env : String → AdapterBehavior) (o : stockOrder) (sc : String)
    (l1 l2 : List String) (b : String)
    (hb : o.brokers = l1 ++ b :: l2)
    (hsc : sc = "_holdings" ∨ sc = "_transaction")
    (hrob : b ≠ "robinhood") (hex : b ∉ o.notbrokers) (hcred : (creds b).isSome)
    (hfail : (env (nicknames b)).init = InitOutcome.raises ∨
      (nicknames b ∉ playwrightBrokers ∧
       (env (nicknames b)).init = InitOutcome.retSession ∧
       (env (nicknames b)).actionOk = false)) :
    (∃ fn, RunEvent.errorLog (nicknames b) fn o ∈ processBroker creds env o sc b) ∧
    fun_run creds env o ("_init", sc) =
      l1.flatMap (processBroker creds env o sc) ++ processBroker creds env o sc b ++
      (l2.flatMap (processBroker creds env o sc) ++ [RunEvent.allComplete]) := by
  have hval : ("_init", sc) = ("_init", "_holdings") ∨ ("_init", sc) = ("_init", "_transaction") := by
    rcases hsc with h | h
    · exact Or.inl (by rw [h])
    · exact Or.inr (by rw [h])
  constructor
  · obtain ⟨c, hc⟩ := Option.isSome_iff_exists.mp hcred
    suffices h : ∃ fn, RunEvent.errorLog (nicknames b) fn o ∈
        brokerTryEvents (env (nicknames b)) o sc (nicknames b) by
      obtain ⟨fn, hfn⟩ := h
      refine ⟨fn, ?_⟩
      unfold processBroker
      rw [if_neg hrob, if_neg hex, hc]
      exact List.mem_cons_of_mem _ hfn
    rcases hfail with hinit | ⟨hnpw, hinit, haction⟩
    · by_cases hpw : nicknames b ∈ playwrightBrokers
      · exact ⟨nicknames b ++ "_run", by simp [brokerTryEvents, hpw, hinit]⟩
      · exact ⟨nicknames b ++ "_init", by simp [brokerTryEvents, hpw, hinit]⟩
    · have hch : nicknames b ≠ "chase" := fun hcon => by
        rw [hcon] at hnpw
        exact hnpw (by decide)
      have hva : nicknames b ≠ "vanguard" := fun hcon => by
        rw [hcon] at hnpw
        exact hnpw (by decide)
      have hempty : o.brokers.isEmpty = false := by
        rw [hb]
        simp
      rcases hval with h | h
      · obtain rfl : sc = "_holdings" := by simpa using congrArg Prod.snd h
        exact ⟨nicknames b ++ "_holdings",
          by simp [brokerTryEvents, postInit, hnpw, hinit, haction, hch, hva, hempty]⟩
      · obtain rfl : sc = "_transaction" := by simpa using congrArg Prod.snd h
        exact ⟨nicknames b ++ "_transaction",
          by simp [brokerTryEvents, postInit, hnpw, hinit, haction, hch, hva, hempty]⟩
  · unfold fun_run
    rw [if_pos hval, if_neg (by rw [hb]; simp)]
    rw [hb, List.flatMap_append, List.flatMap_cons]
    simp [List.append_assoc]

/-- C2 witness: with schwab's adapter raising on init, the dispatch logs the
error for schwab and still runs tradier and webull, ending with the completion
message. -/
theorem broker_failure_isolated_witness :
    (∃ fn, RunEvent.errorLog "schwab" fn { brokers := ["tradier", "schwab", "webull"], stocks := ["A"] } ∈
      processBroker (fun _ => some "c")
        (fun x => if x = "schwab" then ⟨InitOutcome.raises, true⟩ else ⟨InitOutcome.retSession, true⟩)
        { brokers := ["tradier", "schwab", "webull"], stocks := ["A"] } "_transaction" "schwab") ∧
    fun_run (fun _ => some "c")
        (fun x => if x = "schwab" then ⟨InitOutcome.raises, true⟩ else ⟨InitOutcome.retSession, true⟩)
        { brokers := ["tradier", "schwab", "webull"], stocks := ["A"] } ("_init", "_transaction") =
      ["tradier"].flatMap (processBroker (fun _ => some "c")
        (fun x => if x = "schwab" then ⟨InitOutcome.raises, true⟩ else ⟨InitOutcome.retSession, true⟩)
        { brokers := ["tradier", "schwab", "webull"], stocks := ["A"] } "_transaction") ++
      processBroker (fun _ => some "c")
        (fun x => if x = "schwab" then ⟨InitOutcome.raises, true⟩ else ⟨InitOutcome.retSession, true⟩)
        { brokers := ["tradier", "schwab", "webull"], stocks := ["A"] } "_transaction" "schwab" ++
      (["webull"].flatMap (processBroker (fun _ => some "c")
        (fun x => if x = "schwab" then ⟨InitOutcome.raises, true⟩ else ⟨InitOutcome.retSession, true⟩)
        { brokers := ["tradier", "schwab", "webull"], stocks := ["A"] } "_transaction") ++
       [RunEvent.allComplete]) :=
  broker_failure_isolated (fun _ => some "c")
    (fun x => if x = "schwab" then ⟨InitOutcome.raises, true⟩ else ⟨InitOutcome.retSession, true⟩)
    { brokers := ["tradier", "schwab", "webull"], stocks := ["A"] } "_transaction"
    ["tradier"] ["webull"] "schwab" rfl (Or.inr rfl) (by decide) (by decide) rfl
    (Or.inl (by decide))

theorem tradier_transaction_dry (tro : Brokerage) (o : stockOrder)
    (post : String → String → TradierPost) (h : o.dry = true) :
    ∀ e ∈ tradier_transaction tro o post, e.isRealSubmit = false := by
  intro e he
  unfold tradier_transaction at he
  obtain ⟨s, _, he⟩ := List.mem_flatMap.mp he
  obtain ⟨kv, _, he⟩ := List.mem_flatMap.mp he
  rcases List.mem_cons.mp he with rfl | he
  · rfl
  · obtain ⟨a, _, he⟩ := List.mem_flatMap.mp he
    unfold tradier_account_events at he
    split_ifs at he with h1
    · simp only [List.mem_singleton] at he
      subst he
      rfl
    · simp only [List.mem_singleton] at he
      subst he
      rfl

theorem robinhood_transaction_dry (rho : Brokerage) (o : stockOrder)
    (market : String → String → RhOrder) (ask bid : String → Option Rat)
    (limit : String → String → Rat → RhOrder) (h : o.dry = true) :
    ∀ e ∈ robinhood_transaction rho o market ask bid limit, e.isRealSubmit = false := by
  intro e he
  unfold robinhood_transaction at he
  obtain ⟨s, _, he⟩ := List.mem_flatMap.mp he
  obtain ⟨kv, _, he⟩ := List.mem_flatMap.mp he
  rcases List.mem_cons.mp he with rfl | he
  · rfl
  · obtain ⟨a, _, he⟩ := List.mem_flatMap.mp he
    rw [if_neg (not_not_intro h)] at he
    simp only [List.mem_singleton] at he
    subst he
    rfl

theorem fennel_transaction_dry (fbo : Brokerage) (o : stockOrder)
    (place : String → String → String → FennelOrder) (h : o.dry = true) :
    ∀ e ∈ fennel_transaction fbo o place, e.isRealSubmit = false := by
  intro e he
  unfold fennel_transaction at he
  obtain ⟨s, _, he⟩ := List.mem_flatMap.mp he
  obtain ⟨kv, _, he⟩ := List.mem_flatMap.mp he
  rcases List.mem_cons.mp he with rfl | he
  · rfl
  · obtain ⟨a, _, he⟩ := List.mem_flatMap.mp he
    unfold fennel_account_events at he
    rcases List.mem_cons.mp he with rfl | he
    · simp [TxEvent.isRealSubmit, h]
    · cases hp : place kv.fst a s <;> rw [hp] at he <;>
        simp only [List.mem_singleton] at he <;> subst he <;> rfl

theorem public_transaction_dry (pbo : Brokerage) (o : stockOrder)
    (place : String → String → String → PublicOrder) (h : o.dry = true) :
    ∀ e ∈ public_transaction pbo o place, e.isRealSubmit = false := by
  intro e he
  unfold public_transaction at he
  obtain ⟨s, _, he⟩ := List.mem_flatMap.mp he
  obtain ⟨kv, _, he⟩ := List.mem_flatMap.mp he
  rcases List.mem_cons.mp he with rfl | he
  · rfl
  · obtain ⟨a, _, he⟩ := List.mem_flatMap.mp he
    unfold public_account_events at he
    rcases List.mem_cons.mp he with rfl | he
    · simp [TxEvent.isRealSubmit, h]
    · cases hp : place kv.fst a s <;> rw [hp] at he <;>
        simp only [List.mem_singleton] at he <;> subst he <;> rfl

/-- C1: the dry-run flag defaults to true, and for every order request with the
flag set no adapter transact path reaches a branch that submits a real order
to the broker: tradier and robinhood emit only messages (never an order
submission), and fennel and public only call their APIs with the dry-run flag
set. -/
theorem dry_run_no_real_orders (o : stockOrder) (tro rho fbo pbo : Brokerage)
    (post : String → String → TradierPost) (market : String → String → RhOrder)
    (ask bid : String → Option Rat) (limit : String → String → Rat → RhOrder)
    (fplace : String → String → String → FennelOrder)
    (pplace : String → String → String → PublicOrder) (h : o.dry = true) :
    ({} : stockOrder).dry = true ∧
    (∀ e ∈ tradier_transaction tro o post, e.isRealSubmit = false) ∧
    (∀ e ∈ robinhood_transaction rho o market ask bid limit, e.isRealSubmit = false) ∧
    (∀ e ∈ fennel_transaction fbo o fplace, e.isRealSubmit = false) ∧
    (∀ e ∈ public_transaction pbo o pplace, e.isRealSubmit = false) :=
  ⟨rfl, tradier_transaction_dry tro o post h,
   robinhood_transaction_dry rho o market ask bid limit h,
   fennel_transaction_dry fbo o fplace h,
   public_transaction_dry pbo o pplace h⟩

/-- C1 witness: a concrete dry order over two stocks and two accounts produces
no real submission in any of the four modelled transact functions. -/
theorem dry_run_no_real_orders_witness :
    ({ action := "buy", amount := 1, stocks := ["A", "B"], dry := true } : stockOrder).dry = true ∧
    ∀ e ∈ tradier_transaction ⟨"Tradier", [("k1", ["a1", "a2"])]⟩
        { action := "buy", amount := 1, stocks := ["A", "B"], dry := true }
        (fun _ _ => TradierPost.noRoute),
      e.isRealSubmit = false :=
  ⟨rfl,
   (dry_run_no_real_orders
     { action := "buy", amount := 1, stocks := ["A", "B"], dry := true }
     ⟨"Tradier", [("k1", ["a1", "a2"])]⟩ ⟨"Robinhood", []⟩ ⟨"Fennel", []⟩ ⟨"Public", []⟩
     (fun _ _ => TradierPost.noRoute) (fun _ _ => RhOrder.retNone)
     (fun _ => none) (fun _ => none) (fun _ _ _ => RhOrder.retNone)
     (fun _ _ _ => FennelOrder.ret true none) (fun _ _ _ => PublicOrder.ret true)
     rfl).2.1⟩

theorem filterMap_flatMap {α β γ : Type} (l : List α) (g : α → List β) (f : β → Option γ) :
    (l.flatMap g).filterMap f = l.flatMap fun a => (g a).filterMap f := by
  induction l with
  | nil => rfl
  | cons x t ih => simp [List.flatMap_cons, List.filterMap_append, ih]

theorem flatMap_singleton_eq_map {α β : Type} (l : List α) (f : α → β) :
    (l.flatMap fun a => [f a]) = l.map f := by
  induction l <;> simp_all

theorem fennel_account_events_visit (place : String → String → String → FennelOrder)
    (o : stockOrder) (k s a : String) :
    (fennel_account_events place o k s a).filterMap TxEvent.apiVisit = [(k, a, s)] := by
  unfold fennel_account_events
  cases place k a s <;> simp [TxEvent.apiVisit]

theorem public_account_events_visit (place : String → String → String → PublicOrder)
    (o : stockOrder) (k s a : String) :
    (public_account_events place o k s a).filterMap TxEvent.apiVisit = [(k, a, s)] := by
  unfold public_account_events
  cases place k a s <;> simp [TxEvent.apiVisit]

theorem tradier_account_events_visit (post : String → String → TradierPost)
    (o : stockOrder) (s a : String) (hdry : o.dry = false)
    (hint : o.amount.isInt = true) :
    (tradier_account_events post o s a).filterMap TxEvent.tradierVisit = [(a, s)] := by
  unfold tradier_account_events
  rw [if_neg (by simp [hint]), if_pos (by simp [hdry])]
  cases post a s <;> simp [TxEvent.tradierVisit]

/-- C8 counterexample: with two sub-account keys and two symbols,
fennel_transaction's place-order calls happen symbol-major — (k1, A), (k2, A),
(k1, B), (k2, B) — not in the sub-account-major order the claim asserts. -/
theorem transact_order_counterexample :
    (fennel_transaction ⟨"Fennel", [("k1", ["a1"]), ("k2", ["a2"])]⟩ { stocks := ["A", "B"] }
        (fun _ _ _ => FennelOrder.ret true none)).filterMap TxEvent.apiVisit ≠
      claimed_visits ⟨"Fennel", [("k1", ["a1"]), ("k2", ["a2"])]⟩ { stocks := ["A", "B"] } := by
  decide

/-- C8 amended: within one broker, an adapter's transact operation processes
symbols in the order presented in the request and, for each symbol, processes
sub-account keys and their accounts in presentation order before moving to the
next symbol — symbol-major, not sub-account-major (shown for the fennel,
public and tradier adapters; tradier's order POSTs exist when the order is
live and the amount is whole). -/
theorem transact_symbol_major (fbo pbo tro : Brokerage) (o : stockOrder)
    (fplace : String → String → String → FennelOrder)
    (pplace : String → String → String → PublicOrder)
    (post : String → String → TradierPost)
    (hdry : o.dry = false) (hint : o.amount.isInt = true) :
    (fennel_transaction fbo o fplace).filterMap TxEvent.apiVisit = transaction_visits fbo o ∧
    (public_transaction pbo o pplace).filterMap TxEvent.apiVisit = transaction_visits pbo o ∧
    (tradier_transaction tro o post).filterMap TxEvent.tradierVisit = tradier_visits tro o := by
  refine ⟨?_, ?_, ?_⟩
  · unfold fennel_transaction transaction_visits
    simp only [filterMap_flatMap, List.filterMap_cons, TxEvent.apiVisit,
      fennel_account_events_visit fplace o, flatMap_singleton_eq_map]
  · unfold public_transaction transaction_visits
    simp only [filterMap_flatMap, List.filterMap_cons, TxEvent.apiVisit,
      public_account_events_visit pplace o, flatMap_singleton_eq_map]
  · unfold tradier_transaction tradier_visits
    simp only [filterMap_flatMap, List.filterMap_cons, TxEvent.tradierVisit]
    simp only [show ∀ s a, (tradier_account_events post o s a).filterMap TxEvent.tradierVisit = [(a, s)]
        from fun s a => tradier_account_events_visit post o s a hdry hint,
      flatMap_singleton_eq_map]

/-- C8 amended witness: a concrete live integer order over two symbols and two
sub-accounts is processed symbol-major by all three modelled adapters. -/
theorem transact_symbol_major_witness :
    (fennel_transaction ⟨"Fennel", [("k1", ["a1"]), ("k2", ["a2"])]⟩
        { action := "buy", amount := 1, stocks := ["A", "B"], dry := false }
        (fun _ _ _ => FennelOrder.ret true none)).filterMap TxEvent.apiVisit =
      transaction_visits ⟨"Fennel", [("k1", ["a1"]), ("k2", ["a2"])]⟩
        { action := "buy", amount := 1, stocks := ["A", "B"], dry := false } ∧
    (tradier_transaction ⟨"Tradier", [("k1", ["a1"]), ("k2", ["a2"])]⟩
        { action := "buy", amount := 1, stocks := ["A", "B"], dry := false }
        (fun _ _ => TradierPost.noRoute)).filterMap TxEvent.tradierVisit =
      tradier_visits ⟨"Tradier", [("k1", ["a1"]), ("k2", ["a2"])]⟩
        { action := "buy", amount := 1, stocks := ["A", "B"], dry := false } :=
  ⟨(transact_symbol_major ⟨"Fennel", [("k1", ["a1"]), ("k2", ["a2"])]⟩ ⟨"Public", []⟩
      ⟨"Tradier", [("k1", ["a1"]), ("k2", ["a2"])]⟩
      { action := "buy", amount := 1, stocks := ["A", "B"], dry := false }
      (fun _ _ _ => FennelOrder.ret true none) (fun _ _ _ => PublicOrder.ret true)
      (fun _ _ => TradierPost.noRoute) rfl (by decide)).1,
   (transact_symbol_major ⟨"Fennel", [("k1", ["a1"]), ("k2", ["a2"])]⟩ ⟨"Public", []⟩
      ⟨"Tradier", [("k1", ["a1"]), ("k2", ["a2"])]⟩
      { action := "buy", amount := 1, stocks := ["A", "B"], dry := false }
      (fun _ _ _ => FennelOrder.ret true none) (fun _ _ _ => PublicOrder.ret true)
      (fun _ _ => TradierPost.noRoute) rfl (by decide)).2.2⟩

theorem schwabGo_fail (uid : String) (login : String → LoginOutcome) (all : List String)
    (a : String) (ha : login a = LoginOutcome.fail) :
    ∀ l, a ∈ l → schwabGo uid login all l = none := by
  intro l
  induction l with
  | nil => exact fun h => absurd h (List.not_mem_nil a)
  | cons b t ih =>
    intro h
    rcases List.mem_cons.mp h with rfl | h
    · simp [schwabGo, ha]
    · cases hb : login b
      · simp [schwabGo, hb]
      · simp [schwabGo, hb, ih h]

theorem robinhoodGo_fail (uid : String) (login : String → LoginOutcome)
    (a : String) (ha : login a = LoginOutcome.fail) :
    ∀ l seen, a ∈ l → robinhoodGo uid login seen l = none := by
  intro l
  induction l with
  | nil => exact fun seen h => absurd h (List.not_mem_nil a)
  | cons b t ih =>
    intro seen h
    rcases List.mem_cons.mp h with rfl | h
    · simp [robinhoodGo, ha]
    · cases hb : login b
      · simp [robinhoodGo, hb]
      · simp [robinhoodGo, hb, ih _ h]

theorem fennelGo_append (uid : String) (bm : Bool) (first : String → FennelLoginStep)
    (otp : String → Option String) (retry : String → LoginOutcome)
    (l1 l2 : List String) (i : Nat) :
    fennelGo uid bm first otp retry i (l1 ++ l2) =
      ((fennelGo uid bm first otp retry i l1).fst ++
        (fennelGo uid bm first otp retry (i + l1.length) l2).fst,
       (fennelGo uid bm first otp retry i l1).snd ++
        (fennelGo uid bm first otp retry (i + l1.length) l2).snd) := by
  induction l1 generalizing i with
  | nil => simp [fennelGo]
  | cons a t ih =>
    simp only [List.cons_append, fennelGo, List.append_eq]
    rw [ih (i + 1)]
    simp [List.append_assoc, Nat.add_assoc, Nat.add_comm, Nat.add_left_comm]

theorem publicGo_append (uid : String) (bm : Bool) (first : String → PublicLoginStep)
    (otp : String → Option String) (retry : String → PublicRetry)
    (l1 l2 : List String) (i : Nat) :
    publicGo uid bm first otp retry i (l1 ++ l2) =
      ((publicGo uid bm first otp retry i l1).fst ++
        (publicGo uid bm first otp retry (i + l1.length) l2).fst,
       (publicGo uid bm first otp retry i l1).snd ++
        (publicGo uid bm first otp retry (i + l1.length) l2).snd) := by
  induction l1 generalizing i with
  | nil => simp [publicGo]
  | cons a t ih =>
    simp only [List.cons_append, publicGo, List.append_eq]
    rw [ih (i + 1)]
    simp [List.append_assoc, Nat.add_assoc, Nat.add_comm, Nat.add_left_comm]

/-- C4 counterexample: schwab_init and robinhood_init configured with three
credential sets of which only the second fails return None, discarding the
sessions of sets one and three instead of returning them. -/
theorem init_partial_counterexample :
    exLogin "u1" = LoginOutcome.ok ["A-u1"] ∧ exLogin "u2" = LoginOutcome.fail ∧
    exLogin "u3" = LoginOutcome.ok ["A-u3"] ∧
    schwab_init (some ["u1", "u2", "u3"]) "0" exLogin = none ∧
    robinhood_init (some ["u1", "u2", "u3"]) "0" exLogin = none := by
  refine ⟨rfl, rfl, rfl, ?_, ?_⟩ <;> rfl

/-- C4 amended: fennel's init tolerates partial failure — a failing credential
set is skipped and the sessions of the remaining sets are still returned — and
returns None only when the broker is entirely unconfigured; schwab's and
robinhood's inits return None when unconfigured but also as soon as any one
credential set fails, discarding the sessions of credential sets that
succeeded. -/
theorem init_partial_failure_of_creds (uid : String) (bm : Bool)
    (first : String → FennelLoginStep) (otp : String → Option String)
    (retry : String → LoginOutcome) (login : String → LoginOutcome)
    (l l1 l2 : List String) (a : String) :
    schwab_init none uid login = none ∧
    robinhood_init none uid login = none ∧
    (fennel_init none uid bm first otp retry).snd = none ∧
    ((fennel_init (some l) uid bm first otp retry).snd).isSome = true ∧
    (first a = FennelLoginStep.err →
      (fennel_init (some (l1 ++ a :: l2)) uid bm first otp retry).snd =
        some ((fennelGo uid bm first otp retry 0 l1).snd ++
          (fennelGo uid bm first otp retry (l1.length + 1) l2).snd)) ∧
    (a ∈ l → login a = LoginOutcome.fail →
      schwab_init (some l) uid login = none ∧
      robinhood_init (some l) uid login = none) := by
  refine ⟨rfl, rfl, rfl, rfl, ?_, ?_⟩
  · intro herr
    have h2 : (fennelGo uid bm first otp retry 0 (l1 ++ a :: l2)).snd =
        (fennelGo uid bm first otp retry 0 l1).snd ++
          (fennelGo uid bm first otp retry (l1.length + 1) l2).snd := by
      rw [fennelGo_append]
      simp [fennelGo, herr, Nat.zero_add]
    show some (fennelGo uid bm first otp retry 0 (l1 ++ a :: l2)).snd = _
    rw [h2]
  · intro hmem hfail
    exact ⟨schwabGo_fail uid login l a hfail l hmem,
      robinhoodGo_fail uid login a hfail l [] hmem⟩

/-- C4 amended witness: with the middle of three fennel credential sets failing,
fennel_init still returns the sessions of sets one and three; the same failing
set makes schwab_init and robinhood_init return None. -/
theorem init_partial_failure_of_creds_witness :
    (fennel_init (some (["u1"] ++ "u2" :: ["u3"])) "0" true
        (fun c => if c = "u2" then FennelLoginStep.err else FennelLoginStep.ok ["X"])
        (fun _ => none) (fun _ => LoginOutcome.fail)).snd =
      some ((fennelGo "0" true
        (fun c => if c = "u2" then FennelLoginStep.err else FennelLoginStep.ok ["X"])
        (fun _ => none) (fun _ => LoginOutcome.fail) 0 ["u1"]).snd ++
       (fennelGo "0" true
        (fun c => if c = "u2" then FennelLoginStep.err else FennelLoginStep.ok ["X"])
        (fun _ => none) (fun _ => LoginOutcome.fail) 2 ["u3"]).snd) ∧
    schwab_init (some ["u1", "u2", "u3"]) "0" exLogin = none :=
  ⟨(init_partial_failure_of_creds "0" true
      (fun c => if c = "u2" then FennelLoginStep.err else FennelLoginStep.ok ["X"])
      (fun _ => none) (fun _ => LoginOutcome.fail) exLogin
      ["u1", "u2", "u3"] ["u1"] ["u3"] "u2").2.2.2.2.1 (by decide),
   ((init_partial_failure_of_creds "0" true
      (fun c => if c = "u2" then FennelLoginStep.err else FennelLoginStep.ok ["X"])
      (fun _ => none) (fun _ => LoginOutcome.fail) exLogin
      ["u1", "u2", "u3"] ["u1"] ["u3"] "u2").2.2.2.2.2 (by decide) (by decide)).1⟩

/-- C6: a login needing an out-of-band one-time code waits for it with the
300-second default timeout, and when the timeout elapses with no code
delivered (the code provider returns none) the adapter treats it as a login
failure for that credential set only: both fennel_init and public_init log
the failure, keep the sessions and events of all other credential sets
exactly as they would be, and return normally — never an unhandled crash. -/
theorem otp_timeout_login_failure (uid : String) (first : String → FennelLoginStep)
    (otp : String → Option String) (retry : String → LoginOutcome)
    (pfirst : String → PublicLoginStep) (potp : String → Option String)
    (pretry : String → PublicRetry) (l1 l2 : List String) (a : String)
    (hf : first a = FennelLoginStep.twoFA)
    (ho : otp (uid ++ "-Fennel " ++ toString (l1.length + 1)) = none)
    (hp : pfirst a = PublicLoginStep.twoFA)
    (hpo : potp (uid ++ "-Public " ++ toString (l1.length + 1)) = none) :
    fennel_init (some (l1 ++ a :: l2)) uid true first otp retry =
      ((fennelGo uid true first otp retry 0 l1).fst ++
        InitEvent.awaitCode (uid ++ "-Fennel " ++ toString (l1.length + 1)) 300 ::
        InitEvent.loginError (uid ++ "-Fennel " ++ toString (l1.length + 1)) "Fennel(2FA)" ::
        (fennelGo uid true first otp retry (l1.length + 1) l2).fst,
       some ((fennelGo uid true first otp retry 0 l1).snd ++
        (fennelGo uid true first otp retry (l1.length + 1) l2).snd)) ∧
    public_init (some (l1 ++ a :: l2)) uid true pfirst potp pretry =
      ((publicGo uid true pfirst potp pretry 0 l1).fst ++
        InitEvent.awaitCode (uid ++ "-Public " ++ toString (l1.length + 1)) 300 ::
        InitEvent.loginError (uid ++ "-Public " ++ toString (l1.length + 1)) "Public" ::
        (publicGo uid true pfirst potp pretry (l1.length + 1) l2).fst,
       some ((publicGo uid true pfirst potp pretry 0 l1).snd ++
        (publicGo uid true pfirst potp pretry (l1.length + 1) l2).snd)) := by
  constructor
  · show ((fennelGo uid true first otp retry 0 (l1 ++ a :: l2)).fst,
      some (fennelGo uid true first otp retry 0 (l1 ++ a :: l2)).snd) = _
    rw [fennelGo_append]
    simp [fennelGo, hf, ho, Nat.zero_add]
  · show ((publicGo uid true pfirst potp pretry 0 (l1 ++ a :: l2)).fst,
      some (publicGo uid true pfirst potp pretry 0 (l1 ++ a :: l2)).snd) = _
    rw [publicGo_append]
    simp [publicGo, hp, hpo, Nat.zero_add]

/-- C6 witness: with the middle of three credential sets requiring a code that
never arrives, fennel_init and public_init each record the 300-second wait and
the login failure for that set and still return the sessions of the other two
sets. -/
theorem otp_timeout_login_failure_witness :
    fennel_init (some (["c1"] ++ "c2" :: ["c3"])) "7" true
        (fun c => if c = "c2" then FennelLoginStep.twoFA else FennelLoginStep.ok ["X"])
        (fun _ => none) (fun _ => LoginOutcome.fail) =
      ((fennelGo "7" true
          (fun c => if c = "c2" then FennelLoginStep.twoFA else FennelLoginStep.ok ["X"])
          (fun _ => none) (fun _ => LoginOutcome.fail) 0 ["c1"]).fst ++
        InitEvent.awaitCode ("7" ++ "-Fennel " ++ toString (1 + 1)) 300 ::
        InitEvent.loginError ("7" ++ "-Fennel " ++ toString (1 + 1)) "Fennel(2FA)" ::
        (fennelGo "7" true
          (fun c => if c = "c2" then FennelLoginStep.twoFA else FennelLoginStep.ok ["X"])
          (fun _ => none) (fun _ => LoginOutcome.fail) (1 + 1) ["c3"]).fst,
       some ((fennelGo "7" true
          (fun c => if c = "c2" then FennelLoginStep.twoFA else FennelLoginStep.ok ["X"])
          (fun _ => none) (fun _ => LoginOutcome.fail) 0 ["c1"]).snd ++
        (fennelGo "7" true
          (fun c => if c = "c2" then FennelLoginStep.twoFA else FennelLoginStep.ok ["X"])
          (fun _ => none) (fun _ => LoginOutcome.fail) (1 + 1) ["c3"]).snd)) :=
  (otp_timeout_login_failure "7"
    (fun c => if c = "c2" then FennelLoginStep.twoFA else FennelLoginStep.ok ["X"])
    (fun _ => none) (fun _ => LoginOutcome.fail)
    (fun c => if c = "c2" then PublicLoginStep.twoFA else PublicLoginStep.ok "N")
    (fun _ => none) (fun _ => PublicRetry.fail) ["c1"] ["c3"] "c2"
    (by decide) rfl (by decide) rfl).1

end AutoRSA
